import Mathlib

/-!
# Verification of the kanabell Yu-Gi-Oh card scraper core

Shallow embedding of the classification / stats-extraction / body-segmentation
pipeline of `src/scraper.py` (class `YugiohCardScraper`), together with proofs
of the specification's testable properties.

The scraper's core operates on the plain text of the card-description box.
We embed that text as a Lean `String` (a list of unicode characters) and
translate each Python regular-expression search into an explicit backtracking
matcher with Python `re.search` semantics (leftmost starting position wins;
greedy quantifiers backtrack from the longest candidate).
-/

/-- Python `\s` character class (`re` whitespace for the patterns used). -/
def isPySpace (c : Char) : Bool :=
  c = ' ' || c = '\t' || c = '\n' || c = '\r' || c = '\x0b' || c = '\x0c'

/-- Python `\d` character class (ASCII decimal digits). -/
def isDigitCh (c : Char) : Bool :=
  '0' ≤ c && c ≤ '9'

/-- Python `\S` character class. -/
def isNonSpace (c : Char) : Bool :=
  !isPySpace c

/-- Skip a maximal run of whitespace (`\s*` with nothing after it that could
force backtracking, which is the case in every pattern of the scraper). -/
def eatSpaces (cs : List Char) : List Char :=
  cs.dropWhile isPySpace

/-- Numeric value of a digit run, as Python `int()` computes it. -/
def digitsToNat (ds : List Char) : Nat :=
  ds.foldl (fun a c => 10 * a + (c.toNat - 48)) 0

/-- Greedy `(\d+)`: the maximal leading digit run (must be non-empty) and its
numeric value, with the rest of the input. -/
def takeDigits1 (cs : List Char) : Option (Nat × List Char) :=
  let ds := cs.takeWhile isDigitCh
  if ds.isEmpty then none else some (digitsToNat ds, cs.dropWhile isDigitCh)

/-- The decimal digit character for a value below ten. -/
def digitChar10 (n : Nat) : Char :=
  match n with
  | 0 => '0' | 1 => '1' | 2 => '2' | 3 => '3' | 4 => '4'
  | 5 => '5' | 6 => '6' | 7 => '7' | 8 => '8' | _ => '9'

/-- Fuelled decimal printer (fuel keeps the recursion structural so that the
kernel can evaluate it). -/
def natDigitsCore : Nat → Nat → List Char
  | 0, _ => []
  | fuel + 1, n =>
    if n < 10 then [digitChar10 n]
    else natDigitsCore fuel (n / 10) ++ [digitChar10 (n % 10)]

/-- Decimal digit list of a natural number, as Python `str(int)` prints it. -/
def natDigits (n : Nat) : List Char :=
  natDigitsCore (n + 1) n

theorem digitChar10_toNat : ∀ n, n < 10 → (digitChar10 n).toNat - 48 = n := by
  decide

theorem digitChar10_isDigit : ∀ n, n < 10 → isDigitCh (digitChar10 n) = true := by
  decide

theorem digitsToNat_append_digit (xs : List Char) (c : Char) :
    digitsToNat (xs ++ [c]) = 10 * digitsToNat xs + (c.toNat - 48) := by
  simp [digitsToNat, List.foldl_append]

theorem natDigitsCore_roundtrip :
    ∀ fuel n, n < fuel → digitsToNat (natDigitsCore fuel n) = n := by
  intro fuel
  induction fuel with
  | zero => intro n h; omega
  | succ fuel ih =>
    intro n h
    by_cases h10 : n < 10
    · simp [natDigitsCore, h10, digitsToNat, digitChar10_toNat n h10]
    · have hdiv : n / 10 < n := Nat.div_lt_self (by omega) (by omega)
      have : n / 10 < fuel := by omega
      simp only [natDigitsCore, if_neg h10, digitsToNat_append_digit, ih _ this,
        digitChar10_toNat (n % 10) (Nat.mod_lt _ (by omega))]
      omega

theorem digitsToNat_natDigits (n : Nat) : digitsToNat (natDigits n) = n :=
  natDigitsCore_roundtrip (n + 1) n (Nat.lt_succ_self n)

theorem natDigitsCore_ne_nil :
    ∀ fuel n, n < fuel → natDigitsCore fuel n ≠ [] := by
  intro fuel
  induction fuel with
  | zero => intro n h; omega
  | succ fuel _ =>
    intro n _
    by_cases h10 : n < 10
    · simp [natDigitsCore, h10]
    · simp [natDigitsCore, h10]

theorem natDigits_ne_nil (n : Nat) : natDigits n ≠ [] :=
  natDigitsCore_ne_nil (n + 1) n (Nat.lt_succ_self n)

theorem natDigitsCore_all_digits :
    ∀ fuel n, n < fuel → ∀ c ∈ natDigitsCore fuel n, isDigitCh c = true := by
  intro fuel
  induction fuel with
  | zero => intro n h; omega
  | succ fuel ih =>
    intro n h c hc
    by_cases h10 : n < 10
    · simp [natDigitsCore, h10] at hc
      subst hc; exact digitChar10_isDigit n h10
    · have hdiv : n / 10 < n := Nat.div_lt_self (by omega) (by omega)
      simp only [natDigitsCore, if_neg h10, List.mem_append, List.mem_singleton] at hc
      rcases hc with hc | hc
      · exact ih (n / 10) (by omega) c hc
      · subst hc; exact digitChar10_isDigit (n % 10) (Nat.mod_lt _ (by omega))

theorem natDigits_all_digits (n : Nat) : ∀ c ∈ natDigits n, isDigitCh c = true :=
  natDigitsCore_all_digits (n + 1) n (Nat.lt_succ_self n)

theorem digit_not_space {c : Char} (h : isDigitCh c = true) : isPySpace c = false := by
  simp only [isDigitCh, Bool.and_eq_true, decide_eq_true_eq] at h
  obtain ⟨h1, _⟩ := h
  simp only [isPySpace, Bool.or_eq_false_iff, decide_eq_false_iff_not]
  refine ⟨⟨⟨⟨⟨?_, ?_⟩, ?_⟩, ?_⟩, ?_⟩, ?_⟩ <;> rintro rfl <;> revert h1 <;> decide

/-! ## Regular-expression matchers

Each Python regex used by `extract_monster_stats` / `extract_card_text` is
translated into an explicit matcher.  `re.search` tries every starting
position from the left; at a position, greedy quantifiers try the longest
candidate first and backtrack.  Only the `\S+` groups need real backtracking
in these patterns (every `\s*` / `\d+` is followed by a token its own class
cannot match, so maximal munch is exact for them). -/

/-- Does the first list start with the second? -/
def listStartsWith : List Char → List Char → Bool
  | _, [] => true
  | [], _ :: _ => false
  | a :: as, b :: bs => a = b && listStartsWith as bs

/-- Contiguous-substring test on character lists. -/
def listContainsSub (needle : List Char) : List Char → Bool
  | [] => needle.isEmpty
  | c :: t => listStartsWith (c :: t) needle || listContainsSub needle t

/-- Substring test, Python's `needle in haystack`. -/
def containsSub (needle hay : String) : Bool :=
  listContainsSub needle.data hay.data

theorem listStartsWith_iff (hay needle : List Char) :
    listStartsWith hay needle = true ↔ ∃ t, hay = needle ++ t := by
  induction needle generalizing hay with
  | nil => simp [listStartsWith]
  | cons b bs ih =>
    cases hay with
    | nil => simp [listStartsWith]
    | cons a as =>
      simp only [listStartsWith, Bool.and_eq_true, decide_eq_true_eq, ih,
        List.cons_append, List.cons.injEq]
      constructor
      · rintro ⟨rfl, t, rfl⟩; exact ⟨t, rfl, rfl⟩
      · rintro ⟨t, rfl, rfl⟩; exact ⟨rfl, t, rfl⟩

theorem listContainsSub_iff (needle hay : List Char) :
    listContainsSub needle hay = true ↔ ∃ s t, hay = s ++ needle ++ t := by
  induction hay with
  | nil =>
    simp only [listContainsSub, List.isEmpty_iff]
    constructor
    · rintro rfl; exact ⟨[], [], rfl⟩
    · rintro ⟨s, t, h⟩
      rcases List.append_eq_nil.mp (List.append_eq_nil.mp h.symm).1 with ⟨_, h2⟩
      exact h2
  | cons c t ih =>
    simp only [listContainsSub, Bool.or_eq_true, listStartsWith_iff, ih]
    constructor
    · rintro (⟨u, hu⟩ | ⟨s, u, hu⟩)
      · exact ⟨[], u, by simp [hu]⟩
      · exact ⟨c :: s, u, by simp [hu]⟩
    · rintro ⟨s, u, hu⟩
      cases s with
      | nil => exact Or.inl ⟨u, by simpa using hu⟩
      | cons x xs =>
        simp only [List.cons_append, List.cons.injEq] at hu
        exact Or.inr ⟨xs, u, hu.2⟩

theorem containsSub_trans {a b : String} (t : String)
    (h1 : containsSub a b = true) (h2 : containsSub b t = true) :
    containsSub a t = true := by
  simp only [containsSub, listContainsSub_iff] at *
  obtain ⟨s1, t1, e1⟩ := h1
  obtain ⟨s2, t2, e2⟩ := h2
  exact ⟨s2 ++ s1, t1 ++ t2, by simp [e2, e1]⟩

/-- Tail of `r'星\s*(\d+)\s*/\s*(\S+)\s*/\s*(\S+族)\s*/\s*攻(\d+)\s*/\s*守(\d+)'`
after the race group: `\s*/\s*攻(\d+)\s*/\s*守(\d+)`. -/
def p1AfterRace (cs : List Char) : Option (Nat × Nat) :=
  match eatSpaces cs with
  | [] => none
  | c :: cs =>
    if c = '/' then
      match eatSpaces cs with
      | [] => none
      | c :: cs =>
        if c = '攻' then
          match takeDigits1 cs with
          | none => none
          | some (atk, cs) =>
            match eatSpaces cs with
            | [] => none
            | c :: cs =>
              if c = '/' then
                match eatSpaces cs with
                | [] => none
                | c :: cs =>
                  if c = '守' then
                    match takeDigits1 cs with
                    | none => none
                    | some (df, _) => some (atk, df)
                  else none
              else none
        else none
    else none

/-- Greedy `(\S+族)` followed by `p1AfterRace`; `j + 1` is the candidate length
of the `\S+` part, tried from the longest down (the caller starts at the
length of the maximal non-space run). -/
def p1RaceLoop (cs : List Char) : Nat → Option (List Char × Nat × Nat)
  | 0 => none
  | j + 1 =>
    match cs.drop (j + 1) with
    | [] => p1RaceLoop cs j
    | c :: rest =>
      if c = '族' then
        match p1AfterRace rest with
        | some (atk, df) => some (cs.take (j + 2), atk, df)
        | none => p1RaceLoop cs j
      else p1RaceLoop cs j

/-- Tail after the element group: `\s*/\s*(\S+族)\s*/\s*攻(\d+)\s*/\s*守(\d+)`. -/
def p1AfterElem (cs : List Char) : Option (List Char × Nat × Nat) :=
  match eatSpaces cs with
  | [] => none
  | c :: cs2 =>
    if c = '/' then
      let cs3 := eatSpaces cs2
      p1RaceLoop cs3 (cs3.takeWhile isNonSpace).length
    else none

/-- Greedy `(\S+)` (element) followed by `p1AfterElem`; candidate lengths are
tried from the maximal non-space run down to one. -/
def p1ElemLoop (cs : List Char) : Nat → Option (List Char × List Char × Nat × Nat)
  | 0 => none
  | j + 1 =>
    match p1AfterElem (cs.drop (j + 1)) with
    | some (race, atk, df) => some (cs.take (j + 1), race, atk, df)
    | none => p1ElemLoop cs j

/-- Match of the full stats-line pattern
`r'星\s*(\d+)\s*/\s*(\S+)\s*/\s*(\S+族)\s*/\s*攻(\d+)\s*/\s*守(\d+)'`
anchored at the start of `cs`; returns the captures
(level, element, race, attack, defense). -/
def matchP1At (cs : List Char) : Option (Nat × String × String × Nat × Nat) :=
  match cs with
  | [] => none
  | c :: cs =>
    if c = '星' then
      match takeDigits1 (eatSpaces cs) with
      | none => none
      | some (lv, cs) =>
        match eatSpaces cs with
        | [] => none
        | c :: cs =>
          if c = '/' then
            let cs2 := eatSpaces cs
            match p1ElemLoop cs2 (cs2.takeWhile isNonSpace).length with
            | some (el, race, atk, df) => some (lv, ⟨el⟩, ⟨race⟩, atk, df)
            | none => none
          else none
    else none

/-- `re.search` for the full stats-line pattern: leftmost start wins. -/
def searchP1 : List Char → Option (Nat × String × String × Nat × Nat)
  | [] => none
  | c :: cs =>
    match matchP1At (c :: cs) with
    | some r => some r
    | none => searchP1 cs

/-- `re.search(r'星\s*(\d+)\s*/\s*(\S+)\s*/\s*(\S+族)\s*/\s*攻(\d+)\s*/\s*守(\d+)', text)`
(scraper.py line 284). -/
def fullStatsSearch (text : String) : Option (Nat × String × String × Nat × Nat) :=
  searchP1 text.data

/-- Tail of the no-defense pattern after the race group: `\s*/\s*攻(\d+)`. -/
def p2AfterRace (cs : List Char) : Option Nat :=
  match eatSpaces cs with
  | '/' :: cs =>
    match eatSpaces cs with
    | '攻' :: cs => (takeDigits1 cs).map (fun x => x.1)
    | _ => none
  | _ => none

/-- Greedy `(\S+族)` followed by `p2AfterRace`. -/
def p2RaceLoop (cs : List Char) : Nat → Option (List Char × Nat)
  | 0 => none
  | j + 1 =>
    match cs.drop (j + 1) with
    | '族' :: rest =>
      match p2AfterRace rest with
      | some atk => some (cs.take (j + 2), atk)
      | none => p2RaceLoop cs j
    | _ => p2RaceLoop cs j

/-- Tail after the element group of the no-defense pattern. -/
def p2AfterElem (cs : List Char) : Option (List Char × Nat) :=
  match eatSpaces cs with
  | '/' :: cs2 =>
    let cs3 := eatSpaces cs2
    p2RaceLoop cs3 (cs3.takeWhile isNonSpace).length
  | _ => none

/-- Greedy `(\S+)` followed by `p2AfterElem`. -/
def p2ElemLoop (cs : List Char) : Nat → Option (List Char × List Char × Nat)
  | 0 => none
  | j + 1 =>
    match p2AfterElem (cs.drop (j + 1)) with
    | some (race, atk) => some (cs.take (j + 1), race, atk)
    | none => p2ElemLoop cs j

/-- Match of `r'(\S+)\s*/\s*(\S+族)\s*/\s*攻(\d+)'` anchored at the start;
captures (element, race, attack). -/
def matchP2At (cs : List Char) : Option (String × String × Nat) :=
  match p2ElemLoop cs (cs.takeWhile isNonSpace).length with
  | some (el, race, atk) => some (⟨el⟩, ⟨race⟩, atk)
  | none => none

/-- Leftmost search for the no-defense pattern. -/
def searchP2 : List Char → Option (String × String × Nat)
  | [] => none
  | c :: cs =>
    match matchP2At (c :: cs) with
    | some r => some r
    | none => searchP2 cs

/-- `re.search(r'(\S+)\s*/\s*(\S+族)\s*/\s*攻(\d+)', text)` (scraper.py line 295). -/
def noDefSearch (text : String) : Option (String × String × Nat) :=
  searchP2 text.data

/-- Match of `r'LINK-(\d+)'` anchored at the start. -/
def linkMatchAt (cs : List Char) : Option Nat :=
  match cs with
  | 'L' :: 'I' :: 'N' :: 'K' :: '-' :: cs => (takeDigits1 cs).map (fun x => x.1)
  | _ => none

/-- Leftmost search for `LINK-(\d+)`. -/
def searchLink : List Char → Option Nat
  | [] => none
  | c :: cs =>
    match linkMatchAt (c :: cs) with
    | some r => some r
    | none => searchLink cs

/-- `re.search(r'LINK-(\d+)', text)` (scraper.py line 303). -/
def linkNumSearch (text : String) : Option Nat :=
  searchLink text.data

/-- Match of `r'ランク\s*(\d+)'` anchored at the start. -/
def rankMatchAt (cs : List Char) : Option Nat :=
  match cs with
  | 'ラ' :: 'ン' :: 'ク' :: cs => (takeDigits1 (eatSpaces cs)).map (fun x => x.1)
  | _ => none

/-- Leftmost search for the rank pattern. -/
def searchRank : List Char → Option Nat
  | [] => none
  | c :: cs =>
    match rankMatchAt (c :: cs) with
    | some r => some r
    | none => searchRank cs

/-- `re.search(r'ランク\s*(\d+)', text)` (scraper.py line 310). -/
def rankSearch (text : String) : Option Nat :=
  searchRank text.data

/-- Lazy `(.*?)】`: the characters up to the first `】`; fails at a newline
(`.` does not match `\n`) or at the end of input. -/
def scanToCloseBr : List Char → Option (List Char)
  | [] => none
  | '】' :: _ => some []
  | '\n' :: _ => none
  | c :: cs => (scanToCloseBr cs).map (fun l => c :: l)

/-- Match of `r'【LINK-\d+[：:](.*?)】'` anchored at the start; returns the
direction payload capture. -/
def bracketMatchAt (cs : List Char) : Option (List Char) :=
  match cs with
  | '【' :: 'L' :: 'I' :: 'N' :: 'K' :: '-' :: cs =>
    match takeDigits1 cs with
    | some (_, cs) =>
      match cs with
      | '：' :: cs => scanToCloseBr cs
      | ':' :: cs => scanToCloseBr cs
      | _ => none
    | none => none
  | _ => none

/-- Leftmost search for the bracketed link-directions pattern. -/
def searchBracket : List Char → Option (List Char)
  | [] => none
  | c :: cs =>
    match bracketMatchAt (c :: cs) with
    | some r => some r
    | none => searchBracket cs

/-- `re.search(r'【LINK-\d+[：:](.*?)】', text)` (scraper.py line 333). -/
def bracketLinkSearch (text : String) : Option String :=
  (searchBracket text.data).map (fun l => ⟨l⟩)

/-- Tail of the body-segmentation skip pattern after the race group:
`\s*/\s*攻\d+` (existence only). -/
def p3AfterRace (cs : List Char) : Bool :=
  match eatSpaces cs with
  | '/' :: cs =>
    match eatSpaces cs with
    | '攻' :: cs => !(cs.takeWhile isDigitCh).isEmpty
    | _ => false
  | _ => false

/-- Existence form of the race group for the skip pattern. -/
def p3RaceLoop (cs : List Char) : Nat → Bool
  | 0 => false
  | j + 1 =>
    match cs.drop (j + 1) with
    | '族' :: rest => p3AfterRace rest || p3RaceLoop cs j
    | _ => p3RaceLoop cs j

/-- Tail after the element group of the skip pattern. -/
def p3AfterElem (cs : List Char) : Bool :=
  match eatSpaces cs with
  | '/' :: cs2 =>
    let cs3 := eatSpaces cs2
    p3RaceLoop cs3 (cs3.takeWhile isNonSpace).length
  | _ => false

/-- Existence form of the element group for the skip pattern. -/
def p3ElemLoop (cs : List Char) : Nat → Bool
  | 0 => false
  | j + 1 => p3AfterElem (cs.drop (j + 1)) || p3ElemLoop cs j

/-- Match of `r'星\s*\d+\s*/\s*\S+\s*/\s*\S+族\s*/\s*攻\d+'` anchored
at the start (existence only). -/
def matchP3At (cs : List Char) : Bool :=
  match cs with
  | '星' :: cs =>
    match takeDigits1 (eatSpaces cs) with
    | some (_, cs) =>
      match eatSpaces cs with
      | '/' :: cs =>
        let cs2 := eatSpaces cs
        p3ElemLoop cs2 (cs2.takeWhile isNonSpace).length
      | _ => false
    | none => false
  | _ => false

/-- Leftmost-existence search for the skip pattern. -/
def searchP3 : List Char → Bool
  | [] => false
  | c :: cs => matchP3At (c :: cs) || searchP3 cs

/-- `re.search(r'星\s*\d+\s*/\s*\S+\s*/\s*\S+族\s*/\s*攻\d+', part)`
(scraper.py line 206), as a Boolean test on one line. -/
def statsLineTest (s : String) : Bool :=
  searchP3 s.data

/-! ## Body-text segmentation (`extract_card_text`, scraper.py lines 188-219)

The Python code splits the description text on newlines, strips each part,
skips empty parts, discards type-tag lines (containing both `【` and `】`),
stats lines (matching the skip pattern) and the literal restriction marker,
and keeps the parts that follow the first discarded header line, joined by a
single space. -/

/-- Python `str.split(sep)` for a one-character separator. -/
def splitOnChar (sep : Char) : List Char → List (List Char)
  | [] => [[]]
  | c :: rest =>
    let r := splitOnChar sep rest
    if c = sep then [] :: r
    else
      match r with
      | h :: t => (c :: h) :: t
      | [] => [[c]]

/-- Python `str.strip()`: remove leading and trailing whitespace. -/
def pyStripL (cs : List Char) : List Char :=
  ((cs.dropWhile isPySpace).reverse.dropWhile isPySpace).reverse

/-- Join parts with a single space (Python `' '.join`). -/
def joinSp : List (List Char) → List Char
  | [] => []
  | [x] => x
  | x :: xs => x ++ ' ' :: joinSp xs

/-- The type-tag discard test: the stripped line contains both `【` and `】`. -/
def tagLineTest (q : List Char) : Bool :=
  listContainsSub ['【'] q && listContainsSub ['】'] q

/-- The restriction-marker line. -/
def restrictionMarker : List Char := "(制限カード)".data

/-- The line loop of `extract_card_text`: `found` is the header-seen flag. -/
def cardTextLoop : List (List Char) → Bool → List (List Char)
  | [], _ => []
  | p :: rest, found =>
    let q := pyStripL p
    if q.isEmpty then cardTextLoop rest found
    else if tagLineTest q then cardTextLoop rest true
    else if searchP3 q then cardTextLoop rest true
    else if q = restrictionMarker then cardTextLoop rest found
    else if found then q :: cardTextLoop rest found
    else cardTextLoop rest found

/-- `extract_card_text` on the description text (the `<p>` content after
`<br>` tags have been turned into newlines). -/
def extract_card_text (text : String) : String :=
  ⟨joinSp (cardTextLoop (splitOnChar '\n' text.data) false)⟩

/-! ## Card-type classification (`determine_card_type`, scraper.py lines 110-135) -/

/-- Trap keywords. -/
def trapKw (text : String) : Bool :=
  containsSub "通常罠" text || containsSub "永続罠" text || containsSub "カウンター罠" text

/-- Magic keywords. -/
def magicKw (text : String) : Bool :=
  containsSub "通常魔法" text || containsSub "永続魔法" text || containsSub "速攻魔法" text ||
  containsSub "装備魔法" text || containsSub "フィールド魔法" text || containsSub "儀式魔法" text

/-- Link keyword. -/
def linkKw (text : String) : Bool :=
  containsSub "リンクモンスター" text

/-- Xyz keywords. -/
def xyzKw (text : String) : Bool :=
  containsSub "エクシーズモンスター" text || containsSub "Ｘモンスター" text

/-- Synchro keyword. -/
def synchroKw (text : String) : Bool :=
  containsSub "シンクロモンスター" text

/-- Fusion keyword. -/
def fusionKw (text : String) : Bool :=
  containsSub "融合モンスター" text

/-- Normal/effect monster keywords. -/
def monsterKw (text : String) : Bool :=
  containsSub "通常モンスター" text || containsSub "効果モンスター" text

/-- `determine_card_type` on the description text: the keyword groups are
tested in the fixed order trap, magic, link, xyz, synchro, fusion, monster,
and the first matching group wins. -/
def determine_card_type (text : String) : String :=
  if trapKw text then "trap"
  else if magicKw text then "magic"
  else if linkKw text then "link"
  else if xyzKw text then "xyz"
  else if synchroKw text then "synchro"
  else if fusionKw text then "fusion"
  else if monsterKw text then "monster"
  else "unknown"

/-! ## Stats extraction (`extract_monster_stats`, scraper.py lines 275-358) -/

/-- The partial map of extracted statistics (the Python `stats` dict): a field
is `none` exactly when the corresponding key is absent. -/
structure StatsBag where
  level : Option Nat := none
  element : Option String := none
  race : Option String := none
  attack : Option Nat := none
  defense : Option Nat := none
  hasDefense : Option Bool := none
  hasLevel : Option Bool := none
  hasRank : Option Bool := none
  hasLink : Option Bool := none
  link : Option Nat := none
  rank : Option Nat := none
  monster_type : Option String := none
  linkDirection : Option (List String) := none
deriving DecidableEq

/-- Lines 283-314: the stats-line cascade.  If the full stats-line pattern
matches, it alone populates the bag; otherwise the no-defense pattern, the
`LINK-<int>` token and the rank token are each tried independently. -/
def statsStage1 (text : String) : StatsBag :=
  match fullStatsSearch text with
  | some (l, e, r, a, d) =>
    { level := some l, element := some e, race := some r, attack := some a,
      defense := some d, hasDefense := some true, hasLevel := some true }
  | none =>
    let s : StatsBag :=
      match noDefSearch text with
      | some (e, r, a) =>
        { element := some e, race := some r, attack := some a, hasDefense := some false }
      | none => {}
    let s :=
      match linkNumSearch text with
      | some n => { s with link := some n, hasLink := some true, hasLevel := some false }
      | none => s
    match rankSearch text with
    | some n => { s with rank := some n, hasRank := some true, hasLevel := some false }
    | none => s

/-- Lines 316-328: the independent monster-subtype keyword scan. -/
def setMonsterType (text : String) (s : StatsBag) : StatsBag :=
  if containsSub "通常モンスター" text then { s with monster_type := some "通常モンスター" }
  else if containsSub "効果モンスター" text then { s with monster_type := some "効果モンスター" }
  else if containsSub "融合モンスター" text then { s with monster_type := some "融合モンスター" }
  else if containsSub "シンクロモンスター" text then { s with monster_type := some "シンクロモンスター" }
  else if containsSub "エクシーズモンスター" text then { s with monster_type := some "エクシーズモンスター" }
  else if containsSub "リンクモンスター" text then { s with monster_type := some "リンクモンスター" }
  else s

/-- Lines 336-343: split the bracketed payload on `/`, strip each token,
drop empties, preserve order. -/
def splitDirs (payload : String) : List String :=
  ((splitOnChar '/' payload.data).map pyStripL).filter (fun q => !q.isEmpty)
    |>.map (fun q => (⟨q⟩ : String))

/-- Lines 345-354: the glyph/word fallback.  Each direction is appended in the
fixed canonical order when its arrow glyph or word occurs anywhere in the
text; the eight tests are independent (not mutually exclusive). -/
def fallbackDirs (text : String) : List String :=
  (if containsSub "↖" text || containsSub "左上" text then ["左上"] else []) ++
  (if containsSub "↑" text || containsSub "上" text then ["上"] else []) ++
  (if containsSub "↗" text || containsSub "右上" text then ["右上"] else []) ++
  (if containsSub "←" text || containsSub "左" text then ["左"] else []) ++
  (if containsSub "→" text || containsSub "右" text then ["右"] else []) ++
  (if containsSub "↙" text || containsSub "左下" text then ["左下"] else []) ++
  (if containsSub "↓" text || containsSub "下" text then ["下"] else []) ++
  (if containsSub "↘" text || containsSub "右下" text then ["右下"] else [])

/-- Lines 330-356: link-direction extraction, run when the bag has `hasLink`
or the text names a Link monster. -/
def setLinkDirs (text : String) (s : StatsBag) : StatsBag :=
  if s.hasLink.getD false || containsSub "リンクモンスター" text then
    match bracketLinkSearch text with
    | some payload => { s with linkDirection := some (splitDirs payload) }
    | none =>
      let dirs := fallbackDirs text
      if dirs.isEmpty then s else { s with linkDirection := some dirs }
  else s

/-- `extract_monster_stats` on the description text. -/
def extract_monster_stats (text : String) : StatsBag :=
  setLinkDirs text (setMonsterType text (statsStage1 text))

/-! ## Card records and builders (scraper.py lines 17-88, 360-476) -/

/-- The `MonsterCard` dataclass. -/
structure MonsterCard where
  card_name : String
  card_type : String
  text : String
  image : String
  monster_type : String
  level : Option Nat
  element : String
  race : String
  attack : Nat
  defense : Option Nat
  hasDefense : Bool
  hasLevel : Bool
  hasRank : Bool
  hasLink : Bool
  canNormalSummon : Bool
deriving DecidableEq

/-- The `LinkMonsterCard` dataclass (fields with their Python defaults). -/
structure LinkMonsterCard where
  card_name : String
  card_type : String
  text : String
  image : String
  monster_type : String
  link : Nat
  linkDirection : List String
  element : String
  race : String
  attack : Nat
  hasDefense : Bool := false
  hasLevel : Bool := false
  hasRank : Bool := false
  hasLink : Bool := true
  canNormalSummon : Bool := false
  filterAvailableMaterials : String := "() => true"
  materialCondition : String := "() => true"
deriving DecidableEq

/-- `extract_monster_card` (lines 360-383).  The card name and image filename
come from out-of-scope HTML extraction and are passed in. -/
def extract_monster_card (card_name img text : String) : MonsterCard :=
  let stats := extract_monster_stats text
  { card_name := card_name
    card_type := "モンスター"
    monster_type := stats.monster_type.getD "効果モンスター"
    level := stats.level
    element := stats.element.getD ""
    race := stats.race.getD ""
    attack := stats.attack.getD 0
    defense := stats.defense
    text := extract_card_text text
    image := img
    hasDefense := stats.hasDefense.getD true
    hasLevel := stats.hasLevel.getD true
    hasRank := false
    hasLink := false
    canNormalSummon := if stats.monster_type = some "通常モンスター" then true else false }

/-- `extract_link_card` (lines 457-476); the omitted keyword arguments take
the dataclass defaults. -/
def extract_link_card (card_name img text : String) : LinkMonsterCard :=
  let stats := extract_monster_stats text
  { card_name := card_name
    card_type := "モンスター"
    monster_type := "リンクモンスター"
    link := stats.link.getD 0
    linkDirection := stats.linkDirection.getD []
    element := stats.element.getD ""
    race := stats.race.getD ""
    attack := stats.attack.getD 0
    text := extract_card_text text
    image := img
    canNormalSummon := false }

/-- The `XyzMonsterCard` dataclass (after `__post_init__`). -/
structure XyzMonsterCard where
  card_name : String
  card_type : String
  text : String
  image : String
  monster_type : String
  level : Option Nat
  element : String
  race : String
  attack : Nat
  defense : Option Nat
  hasDefense : Bool
  hasLevel : Bool
  hasRank : Bool
  hasLink : Bool
  canNormalSummon : Bool
  rank : Nat
  filterAvailableMaterials : String
  materialCondition : String
deriving DecidableEq

/-- The keyword arguments of a call to the generated
`XyzMonsterCard.__init__`: `none` encodes an omitted argument. -/
structure XyzKwargs where
  card_name : Option String := none
  card_type : Option String := none
  text : Option String := none
  image : Option String := none
  monster_type : Option String := none
  level : Option (Option Nat) := none
  element : Option String := none
  race : Option String := none
  attack : Option Nat := none
  defense : Option (Option Nat) := none
  hasDefense : Option Bool := none
  hasLevel : Option Bool := none
  hasRank : Option Bool := none
  hasLink : Option Bool := none
  canNormalSummon : Option Bool := none
  rank : Option Nat := none
  filterAvailableMaterials : Option String := none
  materialCondition : Option String := none

/-- Semantics of the dataclass-generated `XyzMonsterCard.__init__`: every
field without a default is a required argument — a call that omits one raises
`TypeError` before any record exists.  When all required arguments are
present, `__post_init__` (lines 56-59) then forces `hasLevel = False`,
`hasRank = True`, `level = None`. -/
def xyzInit (k : XyzKwargs) : Except String XyzMonsterCard :=
  match k.card_name, k.card_type, k.text, k.image, k.monster_type, k.level,
    k.element, k.race, k.attack, k.defense, k.hasDefense, k.hasLevel,
    k.hasRank, k.hasLink, k.canNormalSummon, k.rank with
  | some cn, some ct, some tx, some im, some mt, some _, some el, some ra,
    some atk, some df, some hd, some _, some _, some hk, some cns, some rk =>
    .ok
      { card_name := cn, card_type := ct, text := tx, image := im
        monster_type := mt, level := none, element := el, race := ra
        attack := atk, defense := df, hasDefense := hd, hasLevel := false
        hasRank := true, hasLink := hk, canNormalSummon := cns, rank := rk
        filterAvailableMaterials := k.filterAvailableMaterials.getD "() => true"
        materialCondition := k.materialCondition.getD "() => true" }
  | _, _, _, _, _, _, _, _, _, _, _, _, _, _, _, _ =>
    .error "TypeError: __init__ missing required arguments"

/-- `extract_xyz_card` (lines 385-405): the call site passes exactly the
keyword arguments of the source and omits `level`, `hasLevel`, `hasRank`
and `hasLink`. -/
def extract_xyz_card (card_name img text : String) : Except String XyzMonsterCard :=
  let stats := extract_monster_stats text
  xyzInit
    { card_name := some card_name
      card_type := some "モンスター"
      monster_type := some "エクシーズモンスター"
      rank := some (stats.rank.getD (stats.level.getD 0))
      element := some (stats.element.getD "")
      race := some (stats.race.getD "")
      attack := some (stats.attack.getD 0)
      defense := some (some (stats.defense.getD 0))
      text := some (extract_card_text text)
      image := some img
      hasDefense := some true
      canNormalSummon := some false }

/-- Exactly one of three flags is set. -/
def exactlyOneFlag (a b c : Bool) : Bool :=
  (a && !b && !c) || (!a && b && !c) || (!a && !b && c)

/-! ## Small facts about the stats pipeline stages -/

theorem setMonsterType_hasLevel (t : String) (s : StatsBag) :
    (setMonsterType t s).hasLevel = s.hasLevel := by
  unfold setMonsterType; split_ifs <;> rfl

theorem setMonsterType_hasLink (t : String) (s : StatsBag) :
    (setMonsterType t s).hasLink = s.hasLink := by
  unfold setMonsterType; split_ifs <;> rfl

theorem setMonsterType_link (t : String) (s : StatsBag) :
    (setMonsterType t s).link = s.link := by
  unfold setMonsterType; split_ifs <;> rfl

theorem setMonsterType_level (t : String) (s : StatsBag) :
    (setMonsterType t s).level = s.level := by
  unfold setMonsterType; split_ifs <;> rfl

theorem setMonsterType_attack (t : String) (s : StatsBag) :
    (setMonsterType t s).attack = s.attack := by
  unfold setMonsterType; split_ifs <;> rfl

theorem setMonsterType_defense (t : String) (s : StatsBag) :
    (setMonsterType t s).defense = s.defense := by
  unfold setMonsterType; split_ifs <;> rfl

theorem setMonsterType_hasDefense (t : String) (s : StatsBag) :
    (setMonsterType t s).hasDefense = s.hasDefense := by
  unfold setMonsterType; split_ifs <;> rfl

theorem setLinkDirs_hasLevel (t : String) (s : StatsBag) :
    (setLinkDirs t s).hasLevel = s.hasLevel := by
  unfold setLinkDirs
  split
  · split
    · rfl
    · dsimp only; split <;> rfl
  · rfl

theorem setLinkDirs_hasLink (t : String) (s : StatsBag) :
    (setLinkDirs t s).hasLink = s.hasLink := by
  unfold setLinkDirs
  split
  · split
    · rfl
    · dsimp only; split <;> rfl
  · rfl

theorem setLinkDirs_link (t : String) (s : StatsBag) :
    (setLinkDirs t s).link = s.link := by
  unfold setLinkDirs
  split
  · split
    · rfl
    · dsimp only; split <;> rfl
  · rfl

theorem setLinkDirs_level (t : String) (s : StatsBag) :
    (setLinkDirs t s).level = s.level := by
  unfold setLinkDirs
  split
  · split
    · rfl
    · dsimp only; split <;> rfl
  · rfl

theorem setLinkDirs_attack (t : String) (s : StatsBag) :
    (setLinkDirs t s).attack = s.attack := by
  unfold setLinkDirs
  split
  · split
    · rfl
    · dsimp only; split <;> rfl
  · rfl

theorem setLinkDirs_defense (t : String) (s : StatsBag) :
    (setLinkDirs t s).defense = s.defense := by
  unfold setLinkDirs
  split
  · split
    · rfl
    · dsimp only; split <;> rfl
  · rfl

theorem setLinkDirs_hasDefense (t : String) (s : StatsBag) :
    (setLinkDirs t s).hasDefense = s.hasDefense := by
  unfold setLinkDirs
  split
  · split
    · rfl
    · dsimp only; split <;> rfl
  · rfl

theorem statsStage1_of_full {t : String} {l : Nat} {e r : String} {a d : Nat}
    (h : fullStatsSearch t = some (l, e, r, a, d)) :
    statsStage1 t =
      { level := some l, element := some e, race := some r, attack := some a,
        defense := some d, hasDefense := some true, hasLevel := some true } := by
  unfold statsStage1; rw [h]

theorem statsStage1_of_none_defense {t : String} (h : fullStatsSearch t = none) :
    (statsStage1 t).defense = none ∧ (statsStage1 t).level = none := by
  unfold statsStage1
  rw [h]
  rcases h1 : noDefSearch t with _ | ⟨⟨e, r, a⟩⟩ <;>
    rcases h2 : linkNumSearch t with _ | n <;>
    rcases h3 : rankSearch t with _ | m <;> exact ⟨rfl, rfl⟩

theorem statsStage1_of_no_tokens {t : String} (h : fullStatsSearch t = none)
    (h2 : linkNumSearch t = none) (h3 : rankSearch t = none) :
    (statsStage1 t).hasLevel = none := by
  unfold statsStage1
  rw [h, h2, h3]
  rcases h1 : noDefSearch t with _ | ⟨⟨e, r, a⟩⟩ <;> rfl

theorem statsStage1_of_link {t : String} {n : Nat} (h : fullStatsSearch t = none)
    (h2 : linkNumSearch t = some n) :
    (statsStage1 t).link = some n ∧ (statsStage1 t).hasLink = some true ∧
      (statsStage1 t).hasLevel = some false := by
  unfold statsStage1
  rw [h, h2]
  rcases h1 : noDefSearch t with _ | ⟨⟨e, r, a⟩⟩ <;>
    rcases h3 : rankSearch t with _ | m <;> exact ⟨rfl, rfl, rfl⟩

/-! ## Claim C2: classification priority order -/

/-- C2: for every input text containing a trap keyword, classification
returns `"trap"` regardless of any other keywords; more generally
`determine_card_type` tests the keyword groups in the fixed order
trap, magic, link, xyz, synchro, fusion, plain monster, the first matching
group wins, and `"unknown"` is returned when none matches. -/
theorem determine_card_type_first_match :
    (∀ t, trapKw t = true → determine_card_type t = "trap") ∧
    (∀ t, trapKw t = false → magicKw t = true → determine_card_type t = "magic") ∧
    (∀ t, trapKw t = false → magicKw t = false → linkKw t = true →
      determine_card_type t = "link") ∧
    (∀ t, trapKw t = false → magicKw t = false → linkKw t = false →
      xyzKw t = true → determine_card_type t = "xyz") ∧
    (∀ t, trapKw t = false → magicKw t = false → linkKw t = false →
      xyzKw t = false → synchroKw t = true → determine_card_type t = "synchro") ∧
    (∀ t, trapKw t = false → magicKw t = false → linkKw t = false →
      xyzKw t = false → synchroKw t = false → fusionKw t = true →
      determine_card_type t = "fusion") ∧
    (∀ t, trapKw t = false → magicKw t = false → linkKw t = false →
      xyzKw t = false → synchroKw t = false → fusionKw t = false →
      monsterKw t = true → determine_card_type t = "monster") ∧
    (∀ t, trapKw t = false → magicKw t = false → linkKw t = false →
      xyzKw t = false → synchroKw t = false → fusionKw t = false →
      monsterKw t = false → determine_card_type t = "unknown") := by
  refine ⟨?_, ?_, ?_, ?_, ?_, ?_, ?_, ?_⟩ <;>
    · intro t
      intros
      simp only [determine_card_type, *]
      rfl

/-- Witness for C2: a text holding both trap and magic keywords is classified
as a trap; texts matching only later groups land on those groups. -/
theorem determine_card_type_first_match_witness :
    determine_card_type "通常罠と永続魔法のテキスト" = "trap" ∧
    determine_card_type "永続魔法とリンクモンスター" = "magic" ∧
    determine_card_type "リンクモンスターとエクシーズモンスター" = "link" ∧
    determine_card_type "エクシーズモンスターと効果モンスター" = "xyz" :=
  ⟨determine_card_type_first_match.1 _ (by decide),
   determine_card_type_first_match.2.1 _ (by decide) (by decide),
   determine_card_type_first_match.2.2.1 _ (by decide) (by decide) (by decide),
   determine_card_type_first_match.2.2.2.1 _ (by decide) (by decide) (by decide)
     (by decide)⟩

/-! ## Claim C1: the exactly-one flag invariant -/

/-- C1 counterexample: the text 効果モンスターランク3 is classified
`"monster"`, but the `MonsterCard` built for it has none of `hasLevel`,
`hasRank`, `hasLink` set (the stray rank token clears `hasLevel` in the stats
bag while the builder forces `hasRank = hasLink = false`), so the exactly-one
invariant claimed for every constructed record fails. -/
theorem monster_flags_counterexample :
    determine_card_type "効果モンスターランク3" = "monster" ∧
    exactlyOneFlag (extract_monster_card "" "" "効果モンスターランク3").hasLevel
      (extract_monster_card "" "" "効果モンスターランク3").hasRank
      (extract_monster_card "" "" "効果モンスターランク3").hasLink = false :=
  ⟨rfl, rfl⟩

/-- C1 (amended): every record built by `extract_link_card` has exactly one
of the three flags set (namely `hasLink`) and `hasDefense = false`; and a
record built by `extract_monster_card` from a text classified
NormalOrEffectMonster satisfies the exactly-one property provided the text
does not make the extractor clear `hasLevel` — that is, when the full
stats-line pattern matches, or the text contains neither a `LINK-<int>`
token nor a rank token. -/
theorem card_flags_exactly_one :
    (∀ n i t, (extract_link_card n i t).hasDefense = false ∧
      exactlyOneFlag (extract_link_card n i t).hasLevel
        (extract_link_card n i t).hasRank (extract_link_card n i t).hasLink = true) ∧
    (∀ n i t, determine_card_type t = "monster" →
      ((fullStatsSearch t).isSome = true ∨
        (linkNumSearch t = none ∧ rankSearch t = none)) →
      exactlyOneFlag (extract_monster_card n i t).hasLevel
        (extract_monster_card n i t).hasRank
        (extract_monster_card n i t).hasLink = true) := by
  constructor
  · intro n i t
    exact ⟨rfl, rfl⟩
  · intro n i t _ hcase
    have hLv : (extract_monster_stats t).hasLevel.getD true = true := by
      rcases hcase with hfull | ⟨hlink, hrank⟩
      · rcases Option.isSome_iff_exists.mp hfull with ⟨⟨l, e, r, a, d⟩, hf⟩
        rw [extract_monster_stats, setLinkDirs_hasLevel, setMonsterType_hasLevel,
          statsStage1_of_full hf]
        rfl
      · rcases hf : fullStatsSearch t with _ | ⟨⟨l, e, r, a, d⟩⟩
        · rw [extract_monster_stats, setLinkDirs_hasLevel, setMonsterType_hasLevel,
            statsStage1_of_no_tokens hf hlink hrank]
          rfl
        · rw [extract_monster_stats, setLinkDirs_hasLevel, setMonsterType_hasLevel,
            statsStage1_of_full hf]
          rfl
    show exactlyOneFlag ((extract_monster_stats t).hasLevel.getD true) false false = true
    rw [hLv]
    rfl

/-- Witness for C1 (amended): a plain normal-monster text with no stray
tokens, and the link-card part at a concrete link text. -/
theorem card_flags_exactly_one_witness :
    ((extract_link_card "" "" "リンクモンスターLINK-2：左/右").hasDefense = false ∧
      exactlyOneFlag (extract_link_card "" "" "リンクモンスターLINK-2：左/右").hasLevel
        (extract_link_card "" "" "リンクモンスターLINK-2：左/右").hasRank
        (extract_link_card "" "" "リンクモンスターLINK-2：左/右").hasLink = true) ∧
    exactlyOneFlag (extract_monster_card "" "" "【通常モンスター】かわいい").hasLevel
      (extract_monster_card "" "" "【通常モンスター】かわいい").hasRank
      (extract_monster_card "" "" "【通常モンスター】かわいい").hasLink = true :=
  ⟨card_flags_exactly_one.1 "" "" _,
   card_flags_exactly_one.2 "" "" _ (by decide) (Or.inr ⟨by decide, by decide⟩)⟩

/-! ## Claim C3: the Xyz extractor always raises -/

/-- C3: the call to `XyzMonsterCard(...)` inside `extract_xyz_card` omits the
required dataclass arguments `level`, `hasLevel`, `hasRank` and `hasLink`
(they have no defaults in `MonsterCard`), so the dataclass `__init__` raises
`TypeError` on every input — `extract_xyz_card` never returns a record,
contradicting the never-raises contract. -/
theorem extract_xyz_card_always_raises (n i t : String) :
    ∃ e, extract_xyz_card n i t = .error e :=
  ⟨_, rfl⟩

/-! ## Claim C4: the LINK token search is exclusive with the full pattern -/

/-- C4 counterexample: a text that matches the full stats-line pattern and
also contains a `LINK-2` token; the extractor leaves `link`/`hasLink` unset
and keeps `hasLevel = true`, because the `LINK-<int>` search lives in the
`else` branch of the full stats-line match. -/
theorem link_token_not_independent :
    containsSub "LINK-2" "星4 / 炎 / 戦士族 / 攻1800 / 守1200 LINK-2" = true ∧
    (extract_monster_stats "星4 / 炎 / 戦士族 / 攻1800 / 守1200 LINK-2").link = none ∧
    (extract_monster_stats "星4 / 炎 / 戦士族 / 攻1800 / 守1200 LINK-2").hasLink = none ∧
    (extract_monster_stats "星4 / 炎 / 戦士族 / 攻1800 / 守1200 LINK-2").hasLevel =
      some true :=
  ⟨rfl, rfl, rfl, rfl⟩

/-- C4 (amended): the `LINK-<int>` search is independent of the no-defense
pattern but runs only when the full stats-line pattern does **not** match:
for every text in which the full pattern fails and a `LINK-<int>` token
occurs, the stats bag has `link` set to its value, `hasLink = true` and
`hasLevel = false` (whatever the no-defense pattern did). -/
theorem link_token_independent_in_else (t : String) (n : Nat)
    (hfull : fullStatsSearch t = none) (hlink : linkNumSearch t = some n) :
    (extract_monster_stats t).link = some n ∧
    (extract_monster_stats t).hasLink = some true ∧
    (extract_monster_stats t).hasLevel = some false := by
  obtain ⟨h1, h2, h3⟩ := statsStage1_of_link hfull hlink
  refine ⟨?_, ?_, ?_⟩
  · rw [extract_monster_stats, setLinkDirs_link, setMonsterType_link, h1]
  · rw [extract_monster_stats, setLinkDirs_hasLink, setMonsterType_hasLink, h2]
  · rw [extract_monster_stats, setLinkDirs_hasLevel, setMonsterType_hasLevel, h3]

/-- Witness for C4 (amended) at a concrete link text. -/
theorem link_token_independent_in_else_witness :
    (extract_monster_stats "あおLINK-9з").link = some 9 ∧
    (extract_monster_stats "あおLINK-9з").hasLink = some true ∧
    (extract_monster_stats "あおLINK-9з").hasLevel = some false :=
  link_token_independent_in_else _ 9 (by decide) (by decide)

/-! ## Claim C6: glyph fallback for link directions -/

/-- C6 counterexample: for a link text containing only the diagonal word
左上, the fallback also fires the cardinal checks 上 and 左 (they are
substrings), so the recovered directions are 左上, 上, 左 — not just 左上. -/
theorem fallback_dirs_counterexample :
    containsSub "左上" "リンクモンスター左上" = true ∧
    (extract_monster_stats "リンクモンスター左上").linkDirection =
      some ["左上", "上", "左"] :=
  ⟨rfl, rfl⟩

/-- C6 (amended): the glyph-fallback directions are always emitted in the
fixed canonical compass order (the result is a subsequence of
左上, 上, 右上, 左, 右, 左下, 下, 右下) regardless of where the markers occur
in the text, but the diagonal checks do not mask the cardinal ones: a text
containing only the diagonal word 左上 yields 左上, 上, 左. -/
theorem fallback_dirs_canonical_order :
    (∀ t, List.Sublist (fallbackDirs t)
      ["左上", "上", "右上", "左", "右", "左下", "下", "右下"]) ∧
    fallbackDirs "リンクモンスター左上" = ["左上", "上", "左"] := by
  constructor
  · intro t
    unfold fallbackDirs
    split_ifs <;> decide
  · rfl

/-! ## Claim C10: builder defaults when no stats pattern matched -/

theorem statsStage1_of_all_none {t : String} (h : fullStatsSearch t = none)
    (h1 : noDefSearch t = none) (h2 : linkNumSearch t = none)
    (h3 : rankSearch t = none) : statsStage1 t = {} := by
  unfold statsStage1
  rw [h, h1, h2, h3]

/-- C10 counterexample: for 効果モンスターLINK-2 neither stats-line pattern
matches, yet the built `MonsterCard` has `hasLevel = false` (the stray
`LINK-2` token put `hasLevel = False` into the bag), contradicting the
claimed `hasLevel = true`. -/
theorem monster_defaults_counterexample :
    determine_card_type "効果モンスターLINK-2" = "monster" ∧
    fullStatsSearch "効果モンスターLINK-2" = none ∧
    noDefSearch "効果モンスターLINK-2" = none ∧
    (extract_monster_card "" "" "効果モンスターLINK-2").hasLevel = false :=
  ⟨rfl, rfl, rfl, rfl⟩

/-- C10 (amended): for every text classified NormalOrEffectMonster in which
neither the full stats-line pattern nor the no-defense pattern matches, and
which contains no `LINK-<int>` or rank token either (so the stats bag really
lacks `hasDefense` and `hasLevel`), the built `MonsterCard` has
`hasDefense = true` and `hasLevel = true` while `defense` is null and
`attack` is 0. -/
theorem monster_defaults_when_unmatched (n i t : String)
    (_hm : determine_card_type t = "monster")
    (h : fullStatsSearch t = none) (h1 : noDefSearch t = none)
    (h2 : linkNumSearch t = none) (h3 : rankSearch t = none) :
    (extract_monster_card n i t).hasDefense = true ∧
    (extract_monster_card n i t).hasLevel = true ∧
    (extract_monster_card n i t).defense = none ∧
    (extract_monster_card n i t).attack = 0 := by
  have hbag : statsStage1 t = {} := statsStage1_of_all_none h h1 h2 h3
  refine ⟨?_, ?_, ?_, ?_⟩
  · show (extract_monster_stats t).hasDefense.getD true = true
    rw [extract_monster_stats, setLinkDirs_hasDefense, setMonsterType_hasDefense, hbag]
    rfl
  · show (extract_monster_stats t).hasLevel.getD true = true
    rw [extract_monster_stats, setLinkDirs_hasLevel, setMonsterType_hasLevel, hbag]
    rfl
  · show (extract_monster_stats t).defense = none
    rw [extract_monster_stats, setLinkDirs_defense, setMonsterType_defense, hbag]
  · show (extract_monster_stats t).attack.getD 0 = 0
    rw [extract_monster_stats, setLinkDirs_attack, setMonsterType_attack, hbag]
    rfl

/-- Witness for C10 (amended) at a concrete unmatched monster text. -/
theorem monster_defaults_when_unmatched_witness :
    (extract_monster_card "" "" "通常モンスターのかわいいカード").hasDefense = true ∧
    (extract_monster_card "" "" "通常モンスターのかわいいカード").hasLevel = true ∧
    (extract_monster_card "" "" "通常モンスターのかわいいカード").defense = none ∧
    (extract_monster_card "" "" "通常モンスターのかわいいカード").attack = 0 :=
  monster_defaults_when_unmatched "" "" _ (by decide) (by decide) (by decide)
    (by decide) (by decide)

/-! ## Claim C7: the end-to-end normal-monster scenario -/

/-- C7 counterexample: on the literal one-line input
`"【通常モンスター】 星4 / 炎 / 戦士族 / 攻1800 / 守1200 勇敢な戦士。"`
the whole text is a single newline-free line containing `【`/`】`, so the
body segmenter discards it as a type-tag line and returns the empty string,
not `"勇敢な戦士。"`. -/
theorem scenario_one_line_body_empty :
    extract_card_text "【通常モンスター】 星4 / 炎 / 戦士族 / 攻1800 / 守1200 勇敢な戦士。" = "" ∧
    extract_card_text "【通常モンスター】 星4 / 炎 / 戦士族 / 攻1800 / 守1200 勇敢な戦士。" ≠
      "勇敢な戦士。" :=
  ⟨rfl, by decide⟩

/-- C7 (amended): with the type tag, the stats line and the body on separate
lines (as the `<br>`-to-newline normalization produces them), the pipeline
classifies the text as a normal/effect monster, extracts level 4, element
炎, race 戦士族, attack 1800, defense 1200, `hasDefense = true`,
`hasLevel = true`, and segments the body to exactly 勇敢な戦士。. -/
theorem scenario_normal_monster :
    determine_card_type "【通常モンスター】\n星4 / 炎 / 戦士族 / 攻1800 / 守1200\n勇敢な戦士。" = "monster" ∧
    (extract_monster_stats "【通常モンスター】\n星4 / 炎 / 戦士族 / 攻1800 / 守1200\n勇敢な戦士。").level = some 4 ∧
    (extract_monster_stats "【通常モンスター】\n星4 / 炎 / 戦士族 / 攻1800 / 守1200\n勇敢な戦士。").element = some "炎" ∧
    (extract_monster_stats "【通常モンスター】\n星4 / 炎 / 戦士族 / 攻1800 / 守1200\n勇敢な戦士。").race = some "戦士族" ∧
    (extract_monster_stats "【通常モンスター】\n星4 / 炎 / 戦士族 / 攻1800 / 守1200\n勇敢な戦士。").attack = some 1800 ∧
    (extract_monster_stats "【通常モンスター】\n星4 / 炎 / 戦士族 / 攻1800 / 守1200\n勇敢な戦士。").defense = some 1200 ∧
    (extract_monster_stats "【通常モンスター】\n星4 / 炎 / 戦士族 / 攻1800 / 守1200\n勇敢な戦士。").hasDefense = some true ∧
    (extract_monster_stats "【通常モンスター】\n星4 / 炎 / 戦士族 / 攻1800 / 守1200\n勇敢な戦士。").hasLevel = some true ∧
    extract_card_text "【通常モンスター】\n星4 / 炎 / 戦士族 / 攻1800 / 守1200\n勇敢な戦士。" = "勇敢な戦士。" :=
  ⟨rfl, rfl, rfl, rfl, rfl, rfl, rfl, rfl, rfl⟩

/-! ## Claim C8: the end-to-end link scenario -/

theorem containsSub_false_of_sub {a b : String} (t : String)
    (hab : containsSub a b = true) (hat : containsSub a t = false) :
    containsSub b t = false := by
  cases hc : containsSub b t
  · rfl
  · have := containsSub_trans t hab hc
    rw [this] at hat
    exact absurd hat (by simp)

/-- C8 counterexample: a text containing both `"LINK-2：左/右"` and
リンクモンスター in which the full stats-line pattern also matches; then the
`LINK-<int>` branch is skipped, so `link` and `hasLink` stay unset —
the claimed `linkValue = 2` / `hasLink = true` fail. -/
theorem link_scenario_counterexample :
    containsSub "LINK-2：左/右" "星4 / 炎 / 戦士族 / 攻1800 / 守1200\nリンクモンスターLINK-2：左/右" = true ∧
    containsSub "リンクモンスター" "星4 / 炎 / 戦士族 / 攻1800 / 守1200\nリンクモンスターLINK-2：左/右" = true ∧
    (extract_monster_stats "星4 / 炎 / 戦士族 / 攻1800 / 守1200\nリンクモンスターLINK-2：左/右").link = none ∧
    (extract_monster_stats "星4 / 炎 / 戦士族 / 攻1800 / 守1200\nリンクモンスターLINK-2：左/右").hasLink = none :=
  ⟨rfl, rfl, rfl, rfl⟩

/-- C8 (amended): for every text containing `"LINK-2：左/右"` and
リンクモンスター in which the full stats-line pattern does not match, the
leftmost `LINK-<digits>` token reads 2, no bracketed `【LINK-...】` token
occurs, and none of the other direction glyphs/words (↖, ↑, 上, ↗, ←, ↙,
↓, 下, ↘) occur, stats extraction yields `linkValue = 2`, `hasLink = true`
and `linkDirections = ["左", "右"]` in that order. -/
theorem link_scenario (t : String)
    (hsub : containsSub "LINK-2：左/右" t = true)
    (_hmon : containsSub "リンクモンスター" t = true)
    (hfull : fullStatsSearch t = none)
    (hbr : bracketLinkSearch t = none)
    (hlink : linkNumSearch t = some 2)
    (g1 : containsSub "↖" t = false) (g2 : containsSub "↑" t = false)
    (g3 : containsSub "上" t = false) (g4 : containsSub "↗" t = false)
    (g5 : containsSub "←" t = false) (g6 : containsSub "↙" t = false)
    (g7 : containsSub "↓" t = false) (g8 : containsSub "下" t = false)
    (g9 : containsSub "↘" t = false) :
    (extract_monster_stats t).link = some 2 ∧
    (extract_monster_stats t).hasLink = some true ∧
    (extract_monster_stats t).linkDirection = some ["左", "右"] := by
  obtain ⟨hl, hk, _⟩ := statsStage1_of_link hfull hlink
  have hleft : containsSub "左" t = true :=
    containsSub_trans t (by decide) hsub
  have hright : containsSub "右" t = true :=
    containsSub_trans t (by decide) hsub
  have gLU : containsSub "左上" t = false :=
    containsSub_false_of_sub t (by decide) g3
  have gRU : containsSub "右上" t = false :=
    containsSub_false_of_sub t (by decide) g3
  have gLD : containsSub "左下" t = false :=
    containsSub_false_of_sub t (by decide) g8
  have gRD : containsSub "右下" t = false :=
    containsSub_false_of_sub t (by decide) g8
  have hdirs : fallbackDirs t = ["左", "右"] := by
    simp only [fallbackDirs, g1, g2, g3, g4, g5, g6, g7, g8, g9, gLU, gRU, gLD, gRD,
      hleft, hright, Bool.or_self, Bool.or_false, Bool.false_or]
    simp
  have hkm : (setMonsterType t (statsStage1 t)).hasLink = some true := by
    rw [setMonsterType_hasLink, hk]
  refine ⟨?_, ?_, ?_⟩
  · rw [extract_monster_stats, setLinkDirs_link, setMonsterType_link, hl]
  · rw [extract_monster_stats, setLinkDirs_hasLink, hkm]
  · rw [extract_monster_stats, setLinkDirs, hkm, hbr]
    simp only [Option.getD_some, Bool.true_or, if_true, hdirs]
    rfl

/-- Witness for C8 (amended) at the canonical link text. -/
theorem link_scenario_witness :
    (extract_monster_stats "リンクモンスターLINK-2：左/右").link = some 2 ∧
    (extract_monster_stats "リンクモンスターLINK-2：左/右").hasLink = some true ∧
    (extract_monster_stats "リンクモンスターLINK-2：左/右").linkDirection =
      some ["左", "右"] :=
  link_scenario _ (by decide) (by decide) (by decide) (by decide) (by decide)
    (by decide) (by decide) (by decide) (by decide) (by decide) (by decide)
    (by decide) (by decide) (by decide)

/-! ## Claim C5: fail-closed body segmentation -/

theorem cardTextLoop_no_header (parts : List (List Char))
    (h : ∀ p ∈ parts, tagLineTest (pyStripL p) = false ∧
      searchP3 (pyStripL p) = false) :
    cardTextLoop parts false = [] := by
  induction parts with
  | nil => rfl
  | cons p rest ih =>
    obtain ⟨h1, h2⟩ := h p (List.mem_cons_self _ _)
    have hrest : ∀ q ∈ rest, tagLineTest (pyStripL q) = false ∧
        searchP3 (pyStripL q) = false :=
      fun q hq => h q (List.mem_cons_of_mem _ hq)
    rw [cardTextLoop]
    simp only [h1, h2, Bool.false_eq_true, if_false]
    split_ifs <;> exact ih hrest

/-- C5: if no line of the text (as the segmenter sees it, i.e. stripped)
contains a bracketed 【…】 type tag and no line matches the stats-line
numeric pattern, the header-seen flag never flips and `extract_card_text`
returns the empty string. -/
theorem segment_body_no_header (text : String)
    (h : ∀ p ∈ splitOnChar '\n' text.data, tagLineTest (pyStripL p) = false ∧
      searchP3 (pyStripL p) = false) :
    extract_card_text text = "" := by
  unfold extract_card_text
  rw [cardTextLoop_no_header _ h]
  rfl

/-- Witness for C5 at a concrete header-free text. -/
theorem segment_body_no_header_witness :
    extract_card_text "ありがとう\nこんにちは" = "" :=
  segment_body_no_header _ (by decide)

/-! ## Claim C9: idempotence of the numeric stats extraction

The reconstruction of a stats line from recovered fields is
`星<level> / <element> / <race> / 攻<attack> / 守<defense>`; we show that
re-running the extractor on it recovers the same numeric fields. -/

/-- The stats-line text reconstructed from recovered fields. -/
def reconStats (l : Nat) (e r : String) (a d : Nat) : String :=
  ⟨'星' :: (natDigits l ++ (' ' :: '/' :: ' ' ::
    (e.data ++ (' ' :: '/' :: ' ' ::
    (r.data ++ (' ' :: '/' :: ' ' :: '攻' ::
    (natDigits a ++ (' ' :: '/' :: ' ' :: '守' :: natDigits d))))))))⟩

theorem eatSpaces_cons_space (t : List Char) : eatSpaces (' ' :: t) = eatSpaces t :=
  List.dropWhile_cons_of_pos (by decide)

theorem eatSpaces_cons_of {c : Char} (t : List Char) (h : isPySpace c = false) :
    eatSpaces (c :: t) = c :: t :=
  List.dropWhile_cons_of_neg (by simp [h])

theorem takeWhile_append_all {p : Char → Bool} {xs ys : List Char}
    (h1 : ∀ c ∈ xs, p c = true) (h2 : ∀ c, ys.head? = some c → p c = false) :
    (xs ++ ys).takeWhile p = xs ∧ (xs ++ ys).dropWhile p = ys := by
  induction xs with
  | nil =>
    cases ys with
    | nil => exact ⟨rfl, rfl⟩
    | cons c t =>
      have := h2 c rfl
      constructor
      · exact List.takeWhile_cons_of_neg (by simp [this])
      · exact List.dropWhile_cons_of_neg (by simp [this])
  | cons x xs ih =>
    have hx := h1 x (List.mem_cons_self _ _)
    obtain ⟨t1, t2⟩ := ih (fun c hc => h1 c (List.mem_cons_of_mem _ hc))
    constructor
    · rw [List.cons_append, List.takeWhile_cons_of_pos hx, t1]
    · rw [List.cons_append, List.dropWhile_cons_of_pos hx, t2]

theorem takeDigits1_natDigits (n : Nat) (ys : List Char)
    (h : ∀ c, ys.head? = some c → isDigitCh c = false) :
    takeDigits1 (natDigits n ++ ys) = some (n, ys) := by
  obtain ⟨t1, t2⟩ := takeWhile_append_all (natDigits_all_digits n) h
  unfold takeDigits1
  rw [t1, t2]
  simp only [List.isEmpty_iff, digitsToNat_natDigits]
  rw [if_neg (natDigits_ne_nil n)]

theorem eatSpaces_append_of_head {xs ys : List Char} (hne : xs ≠ [])
    (h : ∀ c ∈ xs, isPySpace c = false) : eatSpaces (xs ++ ys) = xs ++ ys := by
  cases xs with
  | nil => exact absurd rfl hne
  | cons c t => exact eatSpaces_cons_of _ (h c (List.mem_cons_self _ _))

theorem eatSpaces_natDigits (n : Nat) (ys : List Char) :
    eatSpaces (natDigits n ++ ys) = natDigits n ++ ys :=
  eatSpaces_append_of_head (natDigits_ne_nil n)
    (fun c hc => digit_not_space (natDigits_all_digits n c hc))

theorem p1AfterRace_recon (a d : Nat) :
    p1AfterRace (' ' :: '/' :: ' ' :: '攻' ::
      (natDigits a ++ (' ' :: '/' :: ' ' :: '守' :: natDigits d))) = some (a, d) := by
  unfold p1AfterRace
  rw [eatSpaces_cons_space, eatSpaces_cons_of _ (by decide)]
  dsimp only
  rw [if_pos rfl]
  rw [eatSpaces_cons_space, eatSpaces_cons_of _ (by decide)]
  dsimp only
  rw [if_pos rfl]
  rw [takeDigits1_natDigits a _ (by intro c hc; cases hc; decide)]
  dsimp only
  rw [eatSpaces_cons_space, eatSpaces_cons_of _ (by decide)]
  dsimp only
  rw [if_pos rfl]
  rw [eatSpaces_cons_space, eatSpaces_cons_of _ (by decide)]
  dsimp only
  rw [if_pos rfl]
  rw [show natDigits d = natDigits d ++ [] from (List.append_nil _).symm,
    takeDigits1_natDigits d [] (by intro c hc; cases hc)]

theorem p1AfterRace_nil : p1AfterRace [] = none := rfl

theorem p1RaceLoop_recon (rp tail : List Char) (a d : Nat)
    (hrp : rp ≠ []) (hsp : ∀ c, tail.head? = some c → isPySpace c = true)
    (hAfter : p1AfterRace tail = some (a, d)) :
    p1RaceLoop ((rp ++ ['族']) ++ tail) (rp.length + 1) = some (rp ++ ['族'], a, d) := by
  have hdrop1 : ((rp ++ ['族']) ++ tail).drop (rp.length + 1) = tail := by
    have h : (rp ++ ['族']).length = rp.length + 1 := by simp
    rw [← h]
    exact List.drop_left _ _
  have hassoc : (rp ++ ['族']) ++ tail = rp ++ ('族' :: tail) := by simp
  have hdrop2 : ((rp ++ ['族']) ++ tail).drop rp.length = '族' :: tail := by
    rw [hassoc]
    exact List.drop_left _ _
  have htake : ((rp ++ ['族']) ++ tail).take (rp.length + 1) = rp ++ ['族'] := by
    have h : (rp ++ ['族']).length = rp.length + 1 := by simp
    rw [← h]
    exact List.take_left _ _
  cases tail with
  | nil => rw [p1AfterRace_nil] at hAfter; cases hAfter
  | cons c rest =>
    have hcsp := hsp c rfl
    have hcne : ¬ c = '族' := by
      intro h
      subst h
      simp [show isPySpace '族' = false from by decide] at hcsp
    obtain ⟨x, rp2, rfl⟩ : ∃ x rp2, rp = x :: rp2 := by
      cases rp with
      | nil => exact absurd rfl hrp
      | cons x rp2 => exact ⟨x, rp2, rfl⟩
    rw [p1RaceLoop]
    rw [hdrop1]
    dsimp only
    rw [if_neg hcne]
    have hlen : (x :: rp2).length = rp2.length + 1 := rfl
    rw [hlen] at hdrop2 ⊢
    rw [p1RaceLoop]
    rw [hdrop2]
    dsimp only
    rw [if_pos rfl, hAfter]
    dsimp only
    rw [show rp2.length + 1 + 1 = (x :: rp2).length + 1 from rfl, htake]

theorem p1AfterElem_recon (rp : List Char) (a d : Nat)
    (hrp : rp ≠ []) (hns : ∀ c ∈ rp ++ ['族'], isPySpace c = false) :
    p1AfterElem (' ' :: '/' :: ' ' ::
      ((rp ++ ['族']) ++ (' ' :: '/' :: ' ' :: '攻' ::
        (natDigits a ++ (' ' :: '/' :: ' ' :: '守' :: natDigits d))))) =
      some (rp ++ ['族'], a, d) := by
  unfold p1AfterElem
  rw [eatSpaces_cons_space, eatSpaces_cons_of _ (by decide)]
  dsimp only
  rw [if_pos rfl]
  rw [eatSpaces_cons_space,
    eatSpaces_append_of_head (by simp) (fun c hc => hns c (by simpa using hc))]
  have hrun : (((rp ++ ['族']) ++ (' ' :: '/' :: ' ' :: '攻' ::
      (natDigits a ++ (' ' :: '/' :: ' ' :: '守' :: natDigits d)))).takeWhile
        isNonSpace).length = rp.length + 1 := by
    obtain ⟨t1, _⟩ := @takeWhile_append_all isNonSpace (rp ++ ['族'])
      (' ' :: '/' :: ' ' :: '攻' ::
        (natDigits a ++ (' ' :: '/' :: ' ' :: '守' :: natDigits d)))
      (fun c hc => by simp [isNonSpace, hns c hc])
      (fun c hc => by cases hc; decide)
    rw [t1]
    simp
  rw [hrun]
  exact p1RaceLoop_recon rp _ a d hrp (fun c hc => by cases hc; decide)
    (p1AfterRace_recon a d)

theorem p1ElemLoop_recon (e rest race : List Char) (a d : Nat)
    (he : e ≠ []) (hAfter : p1AfterElem rest = some (race, a, d)) :
    p1ElemLoop (e ++ rest) e.length = some (e, race, a, d) := by
  obtain ⟨x, e2, rfl⟩ : ∃ x e2, e = x :: e2 := by
    cases e with
    | nil => exact absurd rfl he
    | cons x e2 => exact ⟨x, e2, rfl⟩
  rw [show (x :: e2).length = e2.length + 1 from rfl, p1ElemLoop,
    show e2.length + 1 = (x :: e2).length from rfl, List.drop_left, hAfter]
  dsimp only
  rw [List.take_left]

theorem matchP1At_recon (l a d : Nat) (e rp : List Char)
    (he : e ≠ []) (hens : ∀ c ∈ e, isPySpace c = false)
    (hrp : rp ≠ []) (hrns : ∀ c ∈ rp ++ ['族'], isPySpace c = false) :
    matchP1At ('星' :: (natDigits l ++ (' ' :: '/' :: ' ' ::
      (e ++ (' ' :: '/' :: ' ' ::
      ((rp ++ ['族']) ++ (' ' :: '/' :: ' ' :: '攻' ::
      (natDigits a ++ (' ' :: '/' :: ' ' :: '守' :: natDigits d))))))))) =
      some (l, ⟨e⟩, ⟨rp ++ ['族']⟩, a, d) := by
  unfold matchP1At
  dsimp only
  rw [if_pos rfl]
  rw [eatSpaces_natDigits]
  rw [takeDigits1_natDigits l _ (by intro c hc; cases hc; decide)]
  dsimp only
  rw [eatSpaces_cons_space, eatSpaces_cons_of _ (by decide)]
  dsimp only
  rw [if_pos rfl]
  rw [eatSpaces_cons_space, eatSpaces_append_of_head he hens]
  have hrun : ((e ++ (' ' :: '/' :: ' ' ::
      ((rp ++ ['族']) ++ (' ' :: '/' :: ' ' :: '攻' ::
      (natDigits a ++ (' ' :: '/' :: ' ' :: '守' :: natDigits d)))))).takeWhile
        isNonSpace).length = e.length := by
    obtain ⟨t1, _⟩ := @takeWhile_append_all isNonSpace e
      (' ' :: '/' :: ' ' ::
        ((rp ++ ['族']) ++ (' ' :: '/' :: ' ' :: '攻' ::
        (natDigits a ++ (' ' :: '/' :: ' ' :: '守' :: natDigits d)))))
      (fun c hc => by simp [isNonSpace, hens c hc])
      (fun c hc => by cases hc; decide)
    rw [t1]
  rw [hrun]
  rw [p1ElemLoop_recon e _ _ a d he (p1AfterElem_recon rp a d hrp hrns)]

theorem fullStatsSearch_recon (l a d : Nat) (e rp : List Char)
    (he : e ≠ []) (hens : ∀ c ∈ e, isPySpace c = false)
    (hrp : rp ≠ []) (hrns : ∀ c ∈ rp ++ ['族'], isPySpace c = false) :
    fullStatsSearch (reconStats l ⟨e⟩ ⟨rp ++ ['族']⟩ a d) =
      some (l, ⟨e⟩, ⟨rp ++ ['族']⟩, a, d) := by
  show searchP1 ('星' :: (natDigits l ++ (' ' :: '/' :: ' ' ::
    (e ++ (' ' :: '/' :: ' ' ::
    ((rp ++ ['族']) ++ (' ' :: '/' :: ' ' :: '攻' ::
    (natDigits a ++ (' ' :: '/' :: ' ' :: '守' :: natDigits d))))))))) = _
  rw [searchP1]
  rw [matchP1At_recon l a d e rp he hens hrp hrns]

/-! Shape of the captures produced by any successful full-pattern match:
the element is a non-empty whitespace-free run, the race is a non-empty
whitespace-free run ending in 族. -/

theorem take_append_of_le {l1 l2 : List Char} :
    ∀ {n : Nat}, n ≤ l1.length → (l1 ++ l2).take n = l1.take n := by
  induction l1 with
  | nil =>
    intro n h
    simp only [List.length_nil, Nat.le_zero] at h
    subst h
    rfl
  | cons x xs ih =>
    intro n h
    cases n with
    | zero => rfl
    | succ n => simp only [List.cons_append, List.take_succ_cons,
        ih (by simpa using h)]

theorem take_succ_of_drop :
    ∀ (n : Nat) (cs : List Char) (c : Char) (rest : List Char),
      cs.drop n = c :: rest → cs.take (n + 1) = cs.take n ++ [c] := by
  intro n
  induction n with
  | zero =>
    intro cs c rest h
    rw [List.drop_zero] at h
    subst h
    rfl
  | succ n ih =>
    intro cs c rest h
    cases cs with
    | nil => simp at h
    | cons x xs =>
      rw [List.drop_succ_cons] at h
      rw [List.take_succ_cons, List.take_succ_cons, ih xs c rest h]
      rfl

theorem length_takeWhile_le_self (p : Char → Bool) (cs : List Char) :
    (cs.takeWhile p).length ≤ cs.length := by
  induction cs with
  | nil => simp [List.takeWhile]
  | cons x xs ih =>
    rw [List.takeWhile_cons]
    split
    · simp only [List.length_cons]
      omega
    · simp

theorem mem_take_of_le_takeWhile {p : Char → Bool} {cs : List Char} {n : Nat}
    (h : n ≤ (cs.takeWhile p).length) : ∀ c ∈ cs.take n, p c = true := by
  intro c hc
  have hcs : cs.takeWhile p ++ cs.dropWhile p = cs :=
    List.takeWhile_append_dropWhile p cs
  rw [← hcs, take_append_of_le h] at hc
  exact List.mem_takeWhile_imp (List.take_subset n _ hc)

theorem p1RaceLoop_shape (cs : List Char) :
    ∀ j race atk df, j ≤ (cs.takeWhile isNonSpace).length →
      p1RaceLoop cs j = some (race, atk, df) →
      ∃ rp, race = rp ++ ['族'] ∧ rp ≠ [] ∧ ∀ c ∈ race, isPySpace c = false := by
  intro j
  induction j with
  | zero =>
    intro race atk df _ h
    cases h
  | succ j ih =>
    intro race atk df hle h
    rw [p1RaceLoop] at h
    split at h
    · exact ih race atk df (by omega) h
    · rename_i c rest heq
      split at h
      · rename_i hc
        subst hc
        split at h
        · rename_i atk2 df2 _
          injection h with h
          injection h with h1 h2
          obtain ⟨rfl, rfl⟩ : atk2 = atk ∧ df2 = df := by
            injection h2 with a b; exact ⟨a, b⟩
          have hlt : j + 1 < cs.length := by
            have := congrArg List.length heq
            simp only [List.length_drop, List.length_cons] at this
            omega
          have htake := take_succ_of_drop (j + 1) cs '族' rest heq
          refine ⟨cs.take (j + 1), by rw [← h1, htake], ?_, ?_⟩
          · rw [ne_eq, List.take_eq_nil_iff]
            rintro (h' | h')
            · omega
            · subst h'
              simp at hlt
          · intro x hx
            rw [← h1, htake] at hx
            rcases List.mem_append.mp hx with hx | hx
            · have := mem_take_of_le_takeWhile hle x hx
              simpa [isNonSpace] using this
            · rw [List.mem_singleton] at hx
              subst hx
              decide
        · exact ih race atk df (by omega) h
      · exact ih race atk df (by omega) h

theorem p1AfterElem_shape {cs race : List Char} {atk df : Nat}
    (h : p1AfterElem cs = some (race, atk, df)) :
    ∃ rp, race = rp ++ ['族'] ∧ rp ≠ [] ∧ ∀ c ∈ race, isPySpace c = false := by
  unfold p1AfterElem at h
  split at h
  · cases h
  · split at h
    · dsimp only at h
      exact p1RaceLoop_shape _ _ race atk df (Nat.le_refl _) h
    · cases h

theorem p1ElemLoop_shape (cs : List Char) :
    ∀ j el race atk df, j ≤ (cs.takeWhile isNonSpace).length →
      p1ElemLoop cs j = some (el, race, atk, df) →
      (el ≠ [] ∧ ∀ c ∈ el, isPySpace c = false) ∧
      ∃ rp, race = rp ++ ['族'] ∧ rp ≠ [] ∧ ∀ c ∈ race, isPySpace c = false := by
  intro j
  induction j with
  | zero =>
    intro el race atk df _ h
    cases h
  | succ j ih =>
    intro el race atk df hle h
    rw [p1ElemLoop] at h
    split at h
    · rename_i race2 atk2 df2 heq
      injection h with h
      injection h with h1 h2
      obtain ⟨rfl, rfl, rfl⟩ : race2 = race ∧ atk2 = atk ∧ df2 = df := by
        injection h2 with a b
        injection b with b c
        exact ⟨a, b, c⟩
      have hlen : j + 1 ≤ cs.length :=
        Nat.le_trans hle (length_takeWhile_le_self _ _)
      constructor
      · constructor
        · rw [← h1, ne_eq, List.take_eq_nil_iff]
          rintro (h' | h')
          · omega
          · subst h'
            simp at hlen
        · intro x hx
          rw [← h1] at hx
          have := mem_take_of_le_takeWhile hle x hx
          simpa [isNonSpace] using this
      · exact p1AfterElem_shape heq
    · exact ih el race atk df (by omega) h

theorem matchP1At_shape {cs : List Char} {l : Nat} {e r : String} {a d : Nat}
    (h : matchP1At cs = some (l, e, r, a, d)) :
    (e.data ≠ [] ∧ ∀ c ∈ e.data, isPySpace c = false) ∧
    ∃ rp, r.data = rp ++ ['族'] ∧ rp ≠ [] ∧ ∀ c ∈ r.data, isPySpace c = false := by
  unfold matchP1At at h
  split at h
  · cases h
  · split at h
    · split at h
      · cases h
      · split at h
        · cases h
        · split at h
          · dsimp only at h
            split at h
            · rename_i el race atk df heq
              injection h with h
              obtain ⟨rfl, h2⟩ : _ ∧ _ := by
                rw [Prod.mk.injEq] at h
                exact h
              obtain ⟨he, h2⟩ : _ ∧ _ := by
                rw [Prod.mk.injEq] at h2
                exact h2
              obtain ⟨hr, h2⟩ : _ ∧ _ := by
                rw [Prod.mk.injEq] at h2
                exact h2
              obtain ⟨rfl, rfl⟩ : _ ∧ _ := by
                rw [Prod.mk.injEq] at h2
                exact h2
              subst he
              subst hr
              exact p1ElemLoop_shape _ _ el race _ _ (Nat.le_refl _) heq
            · cases h
          · cases h
    · cases h

theorem searchP1_shape :
    ∀ (cs : List Char) v, searchP1 cs = some v →
      ∃ suffix, matchP1At suffix = some v := by
  intro cs
  induction cs with
  | nil =>
    intro v h
    cases h
  | cons c cs ih =>
    intro v h
    rw [searchP1] at h
    split at h
    · rename_i r heq
      injection h with h
      subst h
      exact ⟨c :: cs, heq⟩
    · exact ih v h

theorem setMonsterType_element (t : String) (s : StatsBag) :
    (setMonsterType t s).element = s.element := by
  unfold setMonsterType; split_ifs <;> rfl

theorem setMonsterType_race (t : String) (s : StatsBag) :
    (setMonsterType t s).race = s.race := by
  unfold setMonsterType; split_ifs <;> rfl

theorem setLinkDirs_element (t : String) (s : StatsBag) :
    (setLinkDirs t s).element = s.element := by
  unfold setLinkDirs
  split
  · split
    · rfl
    · dsimp only; split <;> rfl
  · rfl

theorem setLinkDirs_race (t : String) (s : StatsBag) :
    (setLinkDirs t s).race = s.race := by
  unfold setLinkDirs
  split
  · split
    · rfl
    · dsimp only; split <;> rfl
  · rfl

theorem extract_monster_stats_full_of_fields {t : String} {l : Nat}
    {e r : String} {a d : Nat}
    (h1 : (extract_monster_stats t).level = some l)
    (h2 : (extract_monster_stats t).element = some e)
    (h3 : (extract_monster_stats t).race = some r)
    (h4 : (extract_monster_stats t).attack = some a)
    (h5 : (extract_monster_stats t).defense = some d) :
    fullStatsSearch t = some (l, e, r, a, d) := by
  rcases hf : fullStatsSearch t with _ | ⟨⟨l2, e2, r2, a2, d2⟩⟩
  · exfalso
    have hd := (statsStage1_of_none_defense hf).1
    rw [extract_monster_stats, setLinkDirs_defense, setMonsterType_defense, hd] at h5
    cases h5
  · rw [extract_monster_stats, setLinkDirs_level, setMonsterType_level,
      statsStage1_of_full hf] at h1
    rw [extract_monster_stats, setLinkDirs_element, setMonsterType_element,
      statsStage1_of_full hf] at h2
    rw [extract_monster_stats, setLinkDirs_race, setMonsterType_race,
      statsStage1_of_full hf] at h3
    rw [extract_monster_stats, setLinkDirs_attack, setMonsterType_attack,
      statsStage1_of_full hf] at h4
    rw [extract_monster_stats, setLinkDirs_defense, setMonsterType_defense,
      statsStage1_of_full hf] at h5
    injection h1 with h1
    injection h2 with h2
    injection h3 with h3
    injection h4 with h4
    injection h5 with h5
    rw [h1, h2, h3, h4, h5]

/-- C9: stats extraction is idempotent in its numeric fields.  Whenever
`extract_monster_stats` recovers level, element, race, attack and defense
from a text, re-running it on the stats-line text reconstructed from those
fields (`星<level> / <element> / <race> / 攻<attack> / 守<defense>`) yields
the same level, attack and defense. -/
theorem stats_extraction_idempotent (text : String) (l a d : Nat) (e r : String)
    (h1 : (extract_monster_stats text).level = some l)
    (h2 : (extract_monster_stats text).element = some e)
    (h3 : (extract_monster_stats text).race = some r)
    (h4 : (extract_monster_stats text).attack = some a)
    (h5 : (extract_monster_stats text).defense = some d) :
    (extract_monster_stats (reconStats l e r a d)).level = some l ∧
    (extract_monster_stats (reconStats l e r a d)).attack = some a ∧
    (extract_monster_stats (reconStats l e r a d)).defense = some d := by
  have hf : searchP1 text.data = some (l, e, r, a, d) :=
    extract_monster_stats_full_of_fields h1 h2 h3 h4 h5
  obtain ⟨suffix, hm⟩ := searchP1_shape _ _ hf
  obtain ⟨⟨hene, hens⟩, rp, hrp, hrpne, hrns⟩ := matchP1At_shape hm
  have hrecon := fullStatsSearch_recon l a d e.data rp hene hens hrpne (hrp ▸ hrns)
  have he2 : (⟨e.data⟩ : String) = e := rfl
  have hr2 : (⟨rp ++ ['族']⟩ : String) = r := by
    rw [← hrp]
  rw [he2, hr2] at hrecon
  refine ⟨?_, ?_, ?_⟩
  · rw [extract_monster_stats, setLinkDirs_level, setMonsterType_level,
      statsStage1_of_full hrecon]
  · rw [extract_monster_stats, setLinkDirs_attack, setMonsterType_attack,
      statsStage1_of_full hrecon]
  · rw [extract_monster_stats, setLinkDirs_defense, setMonsterType_defense,
      statsStage1_of_full hrecon]

/-- Witness for C9 at the canonical stats line. -/
theorem stats_extraction_idempotent_witness :
    (extract_monster_stats (reconStats 4 "炎" "戦士族" 1800 1200)).level = some 4 ∧
    (extract_monster_stats (reconStats 4 "炎" "戦士族" 1800 1200)).attack = some 1800 ∧
    (extract_monster_stats (reconStats 4 "炎" "戦士族" 1800 1200)).defense = some 1200 :=
  stats_extraction_idempotent "星4 / 炎 / 戦士族 / 攻1800 / 守1200" 4 1800 1200
    "炎" "戦士族" rfl rfl rfl rfl rfl
